import Mathlib

/-!
Verification of the Gitaly/Praefect cluster-router specification against the
source code.  Pure fragments of the Go source are shallowly embedded as Lean
definitions; effectful fragments are embedded as functions over explicit
environment records that capture the outcomes of the external calls
(processes, database, network peers) the Go code makes.
-/

namespace Gitaly

/-! ## Lexicographic ordering on strings

The operator CLI sorts storage and virtual-storage names with Go's
`sort.Strings`, i.e. byte-lexicographically.  We embed this as a boolean
comparison on the underlying character lists (compared by code point, which
coincides with byte order for the ASCII names used throughout).
-/

/-- Lexicographic less-or-equal on character lists, comparing code points. -/
def strLeB : List Char → List Char → Bool
  | [], _ => true
  | _ :: _, [] => false
  | a :: as, b :: bs =>
    if a.toNat < b.toNat then true
    else if b.toNat < a.toNat then false
    else strLeB as bs

/-- Lexicographic less-or-equal on strings, as used by `sort.Strings`. -/
def SLe (s t : String) : Prop := strLeB s.data t.data = true

instance : DecidableRel SLe := fun s t => by unfold SLe; infer_instance

theorem chToNat_inj (a b : Char) (h : a.toNat = b.toNat) : a = b :=
  Char.ofNat_toNat a ▸ Char.ofNat_toNat b ▸ congrArg Char.ofNat h

theorem string_data_inj (s t : String) (h : s.data = t.data) : s = t := by
  cases s; cases t; simp_all

theorem strLeB_total (xs ys : List Char) : strLeB xs ys = true ∨ strLeB ys xs = true := by
  induction xs generalizing ys with
  | nil => left; rfl
  | cons a as ih =>
    cases ys with
    | nil => right; rfl
    | cons b bs =>
      rcases Nat.lt_trichotomy a.toNat b.toNat with h | h | h
      · left; simp [strLeB, h]
      · rcases ih bs with h2 | h2
        · left; simp [strLeB, h, h2]
        · right; simp [strLeB, h.symm, h2]
      · right; simp [strLeB, h, Nat.lt_asymm h]

theorem strLeB_antisymm (xs ys : List Char) (h1 : strLeB xs ys = true)
    (h2 : strLeB ys xs = true) : xs = ys := by
  induction xs generalizing ys with
  | nil =>
    cases ys with
    | nil => rfl
    | cons b bs => simp [strLeB] at h2
  | cons a as ih =>
    cases ys with
    | nil => simp [strLeB] at h1
    | cons b bs =>
      rcases Nat.lt_trichotomy a.toNat b.toNat with h | h | h
      · simp [strLeB, h, Nat.lt_asymm h] at h2
      · simp [strLeB, h] at h1 h2
        rw [chToNat_inj a b h, ih bs h1 h2]
      · simp [strLeB, h, Nat.lt_asymm h] at h1

theorem strLeB_trans (xs ys zs : List Char) (h1 : strLeB xs ys = true)
    (h2 : strLeB ys zs = true) : strLeB xs zs = true := by
  induction xs generalizing ys zs with
  | nil => rfl
  | cons a as ih =>
    cases ys with
    | nil => simp [strLeB] at h1
    | cons b bs =>
      cases zs with
      | nil => simp [strLeB] at h2
      | cons c cs =>
        rcases Nat.lt_trichotomy a.toNat b.toNat with hab | hab | hab
        · rcases Nat.lt_trichotomy b.toNat c.toNat with hbc | hbc | hbc
          · simp [strLeB, Nat.lt_trans hab hbc]
          · simp [strLeB, hbc ▸ hab]
          · simp only [strLeB, if_neg (Nat.lt_asymm hbc), if_pos hbc] at h2
            exact absurd h2 (by simp)
        · rcases Nat.lt_trichotomy b.toNat c.toNat with hbc | hbc | hbc
          · simp [strLeB, hab ▸ hbc]
          · have hac : a.toNat = c.toNat := hab.trans hbc
            simp only [strLeB, if_neg (by omega : ¬ a.toNat < b.toNat),
              if_neg (by omega : ¬ b.toNat < a.toNat)] at h1
            simp only [strLeB, if_neg (by omega : ¬ b.toNat < c.toNat),
              if_neg (by omega : ¬ c.toNat < b.toNat)] at h2
            simp only [strLeB, if_neg (by omega : ¬ a.toNat < c.toNat),
              if_neg (by omega : ¬ c.toNat < a.toNat)]
            exact ih bs cs h1 h2
          · simp only [strLeB, if_neg (Nat.lt_asymm hbc), if_pos hbc] at h2
            exact absurd h2 (by simp)
        · simp only [strLeB, if_neg (Nat.lt_asymm hab), if_pos hab] at h1
          exact absurd h1 (by simp)

instance : IsTotal String SLe := ⟨fun s t => strLeB_total s.data t.data⟩

instance : IsTrans String SLe := ⟨fun _ _ _ h1 h2 => strLeB_trans _ _ _ h1 h2⟩

instance : IsAntisymm String SLe :=
  ⟨fun s t h1 h2 => string_data_inj s t (strLeB_antisymm _ _ h1 h2)⟩

/-- `sort.Strings`: sort a list of names lexicographically ascending. -/
def sortStrings (l : List String) : List String := l.insertionSort SLe

theorem sortStrings_eq_of_perm (l₁ l₂ : List String) (h : List.Perm l₁ l₂) :
    sortStrings l₁ = sortStrings l₂ :=
  List.eq_of_perm_of_sorted
    ((List.perm_insertionSort SLe l₁).trans (h.trans (List.perm_insertionSort SLe l₂).symm))
    (List.sorted_insertionSort SLe l₁) (List.sorted_insertionSort SLe l₂)

end Gitaly

namespace UpdateRef

/-! ## `internal/git/updateref/updateref.go`

The `Updater` wraps a `git update-ref --stdin` process.  Its calling
discipline is tracked by an explicit state field.  We embed the state machine
exactly; the interactions with the child process (`setState`, `write`) are
assumed to succeed, since any process failure closes the updater and is
orthogonal to the state discipline under scrutiny.
-/

/-- `state` of the updater (`stateIdle`, `stateStarted`, `statePrepared`,
`stateClosed` in the source). -/
inductive UState
  | idle
  | started
  | prepared
  | closed
deriving DecidableEq, Repr

/-- `invalidStateTransitionError`: names the state the updater was expected
to be in and the state it actually was in. -/
structure StateErr where
  expected : UState
  actual : UState
deriving DecidableEq, Repr

/-- Result of one `Updater` method call: the error (if any) and the state the
updater is left in. -/
abbrev UResult := Option StateErr × UState

/-- `Updater.expectState`: errors and closes the updater if it is not in the
expected state. -/
def expectState (expected s : UState) : UResult :=
  if s = expected then (none, s) else (some ⟨expected, s⟩, UState.closed)

/-- `Updater.checkState`: errors (without closing) if the updater is not in
the expected state. -/
def checkState (expected s : UState) : Option StateErr :=
  if s = expected then none else some ⟨expected, s⟩

/-- `Updater.Start`: begins a new reference transaction. -/
def updaterStart (s : UState) : UResult :=
  match expectState UState.idle s with
  | (none, _) => (none, UState.started)
  | r => r

/-- `Updater.Update`: stages a reference update; requires a started
transaction. -/
def updaterUpdate (s : UState) : UResult :=
  match expectState UState.started s with
  | (none, _) => (none, UState.started)
  | r => r

/-- `Updater.Create`: defined in the source as `Update` with the zero OID as
the old value. -/
def updaterCreate (s : UState) : UResult := updaterUpdate s

/-- `Updater.Delete`: defined in the source as `Update` to the zero OID. -/
def updaterDelete (s : UState) : UResult := updaterUpdate s

/-- `Updater.Prepare`: locks the staged references; requires a started
transaction and moves to the prepared state. -/
def updaterPrepare (s : UState) : UResult :=
  match expectState UState.started s with
  | (none, _) => (none, UState.prepared)
  | r => r

/-- `Updater.Commit`: applies the staged updates.  The transaction can be
committed prepared or unprepared; afterwards the updater is idle again. -/
def updaterCommit (s : UState) : UResult :=
  match checkState UState.prepared s with
  | none => (none, UState.idle)
  | some _ =>
    match expectState UState.started s with
    | (none, _) => (none, UState.idle)
    | r => r

/-- `Updater.Close`: closes the updater unconditionally. -/
def updaterClose (_ : UState) : UState := UState.closed

end UpdateRef

namespace FFlag

/-! ## `internal/metadata/featureflag/featureflag.go`

A feature flag is looked up in the incoming gRPC metadata of the request
context.  Metadata is a map from keys to lists of string values; we embed it
as an association list (first binding wins) and a context as an optional
metadata map (`metadata.FromIncomingContext` can report that no metadata is
attached).  The package-level testing override
(`GITALY_TESTING_ENABLE_ALL_FEATURE_FLAGS`) is taken as disabled.
-/

/-- Incoming gRPC metadata: keys mapped to lists of values. -/
abbrev MD := List (String × List String)

/-- A request context carries either no metadata or a metadata map. -/
abbrev Ctx := Option MD

/-- Look up a metadata key. -/
def mdLookup : MD → String → Option (List String)
  | [], _ => none
  | (k, v) :: rest, key => if k = key then some v else mdLookup rest key

/-- `FeatureFlag`: a name and its default value. -/
structure FeatureFlag where
  name : String
  onByDefault : Bool
deriving DecidableEq, Repr

/-- Modelled from the spec: the metadata key prefix for feature flags
(`ffPrefix`, declared in a file of the `featureflag` package that is not
among the repository files given). -/
def ffPfx : String := "gitaly-feature-"

/-- Modelled from the spec: the metadata key used by the testing facility
that requires explicit feature-flag sets (`explicitFeatureFlagKey`, declared
in a file of the `featureflag` package that is not among the repository
files given).  `IsEnabled` panics when it sees this key for a flag outside
the explicit set. -/
def explicitFFKey : String := "require-explicit-feature-flag-checks"

/-- `strings.ReplaceAll(name, "_", "-")`: every underscore becomes a dash
(character-wise, since the pattern is a single character). -/
def dashName (s : String) : String :=
  String.mk (s.data.map (fun c => if c = '_' then '-' else c))

/-- `FeatureFlag.MetadataKey`: the flag's key in the metadata map. -/
def metadataKey (ff : FeatureFlag) : String :=
  ffPfx ++ dashName ff.name

/-- `FeatureFlag.valueFromContext`: the first metadata value for the flag's
key, if the context has metadata, the key is present and its value list is
non-empty. -/
def valueFromContext (ff : FeatureFlag) (ctx : Ctx) : Option String :=
  match ctx with
  | none => none
  | some md =>
    match mdLookup md (metadataKey ff) with
    | none => none
    | some [] => none
    | some (v :: _) => some v

/-- `FeatureFlag.IsEnabled` with the testing override disabled.  `none`
models the `panic` taken when the metadata carries the explicit
feature-flag-set key but the flag's own key yields no value. -/
def isEnabled (ff : FeatureFlag) (ctx : Ctx) : Option Bool :=
  match valueFromContext ff ctx with
  | none =>
    match ctx with
    | some md =>
      if (mdLookup md explicitFFKey).isSome then none
      else some ff.onByDefault
    | none => some ff.onByDefault
  | some v => some (v = "true")

/-- `FeatureFlag.IsDisabled`: the negation of `IsEnabled` (a panic in
`IsEnabled` propagates). -/
def isDisabled (ff : FeatureFlag) (ctx : Ctx) : Option Bool :=
  (isEnabled ff ctx).map (!·)

end FFlag

namespace Helper

/-! ## `internal/helper/error.go` (error-wrapping helpers)

Go errors are embedded as a tree: `errors.New` (plain), `fmt.Errorf` with a
`%w` verb (wrapping), `status.Error` (an error that itself carries a gRPC
status) and the package's own `statusWrapper` (an error carrying both a cause
and a status).  `status.FromError` in the gRPC version used checks only
whether the error itself carries a status — it does not unwrap — while the
package's `GrpcCode` unwraps to the most nested status. -/

/-- gRPC status codes (`google.golang.org/grpc/codes`). -/
inductive Code
  | ok
  | canceled
  | unknown
  | invalidArgument
  | deadlineExceeded
  | notFound
  | alreadyExists
  | permissionDenied
  | internal
  | unavailable
  | failedPrecondition
  | aborted
  | outOfRange
  | unimplemented
  | dataLoss
  | unauthenticated
deriving DecidableEq, Repr

/-- A Go error value, as the helper package can observe it. -/
inductive GoError
  | plain (msg : String)
  | wrapf (msg : String) (inner : GoError)
  | grpcStatus (code : Code) (msg : String)
  | statusWrapper (inner : GoError) (code : Code) (msg : String)
deriving DecidableEq, Repr

/-- `err.Error()`: the error message.  A `statusWrapper` delegates to its
embedded error. -/
def goMsg : GoError → String
  | .plain m => m
  | .wrapf m _ => m
  | .grpcStatus _ m => m
  | .statusWrapper inner _ _ => goMsg inner

/-- `status.FromError` restricted to its `ok = true` case: the status carried
by the error itself (no unwrapping). -/
def fromStatusError : GoError → Option (Code × String)
  | .grpcStatus c m => some (c, m)
  | .statusWrapper _ c m => some (c, m)
  | _ => none

/-- `errors.Unwrap`. -/
def goUnwrap : GoError → Option GoError
  | .wrapf _ inner => some inner
  | .statusWrapper inner _ _ => some inner
  | _ => none

/-- The loop of `GrpcCode`: unwrap repeatedly, remembering the code of the
most nested error that carries a status. -/
def grpcCodeLoop : GoError → Code → Code
  | .plain _, code => code
  | .wrapf _ inner, code => grpcCodeLoop inner code
  | .grpcStatus c _, _ => c
  | .statusWrapper inner c _, _ => grpcCodeLoop inner c

/-- `GrpcCode`: `codes.OK` for nil, otherwise the most nested code found
while unwrapping, or `codes.Unknown` when none is found. -/
def grpcCode : Option GoError → Code
  | none => Code.ok
  | some e => grpcCodeLoop e Code.unknown

/-- `wrapError`: wraps the error with the given code unless it already
carries a gRPC status; nil stays nil; a code found on a nested error that is
neither `OK` nor `Unknown` takes precedence over the given code. -/
def wrapError (code : Code) (err : Option GoError) : Option GoError :=
  match err with
  | none => none
  | some e =>
    if (fromStatusError e).isSome then some e
    else
      let found := grpcCode (some e)
      let code := if found ≠ Code.ok ∧ found ≠ Code.unknown then found else code
      some (.statusWrapper e code (goMsg e))

/-- `ErrCanceled`. -/
def ErrCanceled (e : Option GoError) : Option GoError := wrapError Code.canceled e

/-- `ErrDeadlineExceeded`. -/
def ErrDeadlineExceeded (e : Option GoError) : Option GoError :=
  wrapError Code.deadlineExceeded e

/-- `ErrInternal`. -/
def ErrInternal (e : Option GoError) : Option GoError := wrapError Code.internal e

/-- `ErrInvalidArgument`. -/
def ErrInvalidArgument (e : Option GoError) : Option GoError :=
  wrapError Code.invalidArgument e

/-- `ErrNotFound`. -/
def ErrNotFound (e : Option GoError) : Option GoError := wrapError Code.notFound e

/-- `ErrFailedPrecondition`. -/
def ErrFailedPrecondition (e : Option GoError) : Option GoError :=
  wrapError Code.failedPrecondition e

/-- `ErrUnavailable`. -/
def ErrUnavailable (e : Option GoError) : Option GoError := wrapError Code.unavailable e

/-- `ErrPermissionDenied`. -/
def ErrPermissionDenied (e : Option GoError) : Option GoError :=
  wrapError Code.permissionDenied e

/-- `ErrAlreadyExists`. -/
def ErrAlreadyExists (e : Option GoError) : Option GoError :=
  wrapError Code.alreadyExists e

/-- `ErrAborted`. -/
def ErrAborted (e : Option GoError) : Option GoError := wrapError Code.aborted e

/-- `ErrUnauthenticated`. -/
def ErrUnauthenticated (e : Option GoError) : Option GoError :=
  wrapError Code.unauthenticated e

end Helper

namespace DeleteRefs

/-! ## `internal/gitaly/service/ref/delete_refs.go`

`DeleteRefs` deletes the requested references through an `updateref.Updater`
and submits one manual vote per transaction phase to the transaction
manager.  The vote hash is a `voting.VoteHash` fed `<ref>\n` for every
successfully staged deletion, finalised once (`voteHash.Vote()`), and the
resulting value is voted in the `Prepared` phase and again in the
`Committed` phase.  We embed the hash state as the accumulated byte string
and leave the hash function itself abstract. -/

/-- Transaction phases (`voting.Prepared` / `voting.Committed`). -/
inductive Phase
  | prepared
  | committed
deriving DecidableEq, Repr

/-- `DeleteRefsRequest`: only the fields the function reads. -/
structure DeleteRefsRequest where
  hasRepository : Bool
  refs : List String
  exceptWithPfx : List String
deriving Repr

/-- `validateDeleteRefRequest`: the error message, if the request is
invalid. -/
def validateDeleteRefRequest (req : DeleteRefsRequest) : Option String :=
  if !req.hasRepository then some "empty Repository"
  else if req.exceptWithPfx.length > 0 ∧ req.refs.length > 0 then
    some "ExceptWithPrefix and Refs are mutually exclusive"
  else if req.exceptWithPfx.length = 0 ∧ req.refs.length = 0 then
    some "empty ExceptWithPrefix and Refs"
  else if req.exceptWithPfx.any (·.length = 0) then some "empty prefix for exclusion"
  else if req.refs.any (·.length = 0) then some "empty ref"
  else none

/-- `hasAnyPrefix`: whether any of the given leading strings starts the
string. -/
def hasAnyPfx (s : String) (pfxs : List String) : Bool :=
  pfxs.any (fun p => p.isPrefixOf s)

/-- `refsToRemove`: the explicitly requested refs, or all existing refs not
covered by an exclusion. -/
def refsToRemove (req : DeleteRefsRequest) (existingRefs : List String) : List String :=
  if req.refs.length > 0 then req.refs
  else existingRefs.filter (fun r => !hasAnyPfx r req.exceptWithPfx)

/-- The error `updater.Prepare` can surface. -/
inductive PrepareErr
  | alreadyLocked (ref : String)
  | other (msg : String)
deriving DecidableEq, Repr

/-- Outcomes of the external calls `DeleteRefs` makes, fixed up front. -/
structure Env where
  /-- `featureflag.DeleteRefsStructuredErrors.IsEnabled(ctx)`. -/
  structuredErrors : Bool
  /-- `repo.GetReferences(ctx)` (used when `Refs` is empty). -/
  existingRefs : List String
  /-- `git.ValidateRevision` failure for a ref name. -/
  invalidRef : String → Bool
  /-- `updater.Delete` failure for a ref name. -/
  deleteErr : String → Option String
  /-- `updater.Prepare` failure. -/
  prepareErr : Option PrepareErr
  /-- `transaction.VoteOnContext` success, per phase. -/
  voteOk : Phase → Bool
  /-- `updater.Commit` failure. -/
  commitErr : Option String

/-- The RPC's result, as far as the claims observe it. -/
inductive Outcome
  | ok
  | gitError (msg : String)
  | rpcError (code : Helper.Code) (msg : String)
deriving DecidableEq, Repr

/-- The deletion loop: stage each deletion, appending `<ref>\n` to the vote
hash after each success.  Returns the accumulated vote-hash input, or the
failing ref's error. -/
def deleteLoop (env : Env) : List String → String → Except String String
  | [], acc => .ok acc
  | r :: rest, acc =>
    match env.deleteErr r with
    | some e => .error e
    | none => deleteLoop env rest (acc ++ r ++ "\n")

/-- `DeleteRefs`, returning the outcome and the votes submitted to the
transaction manager, in order.  `hash` stands for the (fixed-width) hash
function of `voting.VoteHash`; each vote is `hash` applied to the bytes
written so far. -/
def deleteRefs {V : Type} (hash : String → V) (env : Env) (req : DeleteRefsRequest) :
    Outcome × List (Phase × V) :=
  match validateDeleteRefRequest req with
  | some m => (.rpcError Helper.Code.invalidArgument m, [])
  | none =>
    let refnames := refsToRemove req env.existingRefs
    if env.structuredErrors ∧ (refnames.filter (fun r => env.invalidRef r)).length > 0 then
      (.rpcError Helper.Code.invalidArgument "invalid references", [])
    else
      match deleteLoop env refnames "" with
      | .error e =>
        if env.structuredErrors then
          (.rpcError Helper.Code.internal ("unable to delete refs: " ++ e), [])
        else (.gitError e, [])
      | .ok voteBytes =>
        match env.prepareErr with
        | some (.alreadyLocked r) =>
          if env.structuredErrors then
            (.rpcError Helper.Code.failedPrecondition "cannot lock references", [])
          else
            (.gitError ("unable to delete refs: " ++
              "reference is already locked: " ++ r), [])
        | some (.other m) =>
          if env.structuredErrors then
            (.rpcError Helper.Code.internal ("unable to prepare: " ++ m), [])
          else (.gitError ("unable to delete refs: " ++ m), [])
        | none =>
          let vote := hash voteBytes
          if !env.voteOk Phase.prepared then
            (.rpcError Helper.Code.internal "preparatory vote", [])
          else
            match env.commitErr with
            | some m =>
              if env.structuredErrors then
                (.rpcError Helper.Code.internal ("unable to commit: " ++ m),
                  [(Phase.prepared, vote)])
              else
                (.gitError ("unable to delete refs: " ++ m), [(Phase.prepared, vote)])
            | none =>
              if !env.voteOk Phase.committed then
                (.rpcError Helper.Code.internal "committing vote", [(Phase.prepared, vote)])
              else
                (.ok, [(Phase.prepared, vote), (Phase.committed, vote)])

/-- The canonical vote-hash input: every deleted reference name terminated
by a newline, in deletion order. -/
def voteInput : List String → String
  | [] => ""
  | r :: rest => r ++ "\n" ++ voteInput rest

end DeleteRefs

namespace Replicate

/-! ## `ReplicateRepository` (repository service)

`ReplicateRepository` validates the request, creates the target repository
from a snapshot of the source when it is not yet a git directory, checks
up-front that the source exists on its storage, and then synchronises
gitconfig, info attributes and the repository content.  Both the snapshot
path and the existence check surface the sentinel
`ErrInvalidSourceRepository = status.Error(codes.NotFound, "invalid source
repository")` when the source repository is missing. -/

/-- The repository reference carried in the request (`storage_name`,
`relative_path`). -/
structure Repo where
  storageName : String
  relativePath : String
deriving DecidableEq, Repr

/-- `ReplicateRepositoryRequest`: target repository and source. -/
structure Request where
  repository : Option Repo
  source : Option Repo
deriving Repr

/-- Modelled from the spec: `service.ValidateRepository` (declared in a file
of the `service` package that is not among the repository files given)
rejects a missing repository and a malformed routing key — an empty storage
name or an empty relative path. -/
def validateRepository : Option Repo → Option String
  | none => some "empty Repository"
  | some r =>
    if r.storageName = "" then some "empty StorageName"
    else if r.relativePath = "" then some "empty RelativePath"
    else none

/-- `validateReplicateRepository`: the error message, if the request is
invalid. -/
def validateReplicateRepository (req : Request) : Option String :=
  match validateRepository req.repository with
  | some m => some m
  | none =>
    match req.source with
    | none => some "source repository cannot be empty"
    | some src =>
      match req.repository with
      | some repo =>
        if repo.storageName = src.storageName then
          some "repository and source have the same storage"
        else none
      | none => some "empty Repository"

/-- An error as the replication code chains it: the sentinel
`ErrInvalidSourceRepository`, an opaque failure, or a `fmt.Errorf("...: %w")`
wrapping (through which `errors.Is` still finds the sentinel). -/
inductive RErr
  | invalidSource
  | other (msg : String)
  | wrap (msg : String) (inner : RErr)
deriving DecidableEq, Repr

/-- `errors.Is(err, ErrInvalidSourceRepository)`: unwrap and compare against
the sentinel. -/
def RErr.isInvalidSource : RErr → Bool
  | .invalidSource => true
  | .other _ => false
  | .wrap _ inner => inner.isInvalidSource

/-- Outcomes of the external calls `ReplicateRepository` makes, fixed up
front. -/
structure Env where
  /-- `storage.IsGitDirectory(repoPath)` for the target path. -/
  isGitDirectory : Bool
  /-- `s.locator.GetPath` success. -/
  getPathOk : Bool
  /-- Removing a pre-existing invalid directory at the target path
  (`os.Stat` + `os.Rename` into a temp dir) succeeds. -/
  removeOk : Bool
  /-- Dialing the source storage (`newRepoClient`) succeeds. -/
  clientOk : Bool
  /-- Opening the `GetSnapshot` stream succeeds. -/
  snapshotCallOk : Bool
  /-- Whether the source repository exists on its storage.  When it does
  not, the first `GetSnapshot` read fails with `codes.NotFound` and the
  `"GetRepoPath: not a git repository:"` message, and `RepositoryExists`
  reports false. -/
  sourceExists : Bool
  /-- The remaining snapshot reads and the tar extraction succeed. -/
  tarOk : Bool
  /-- The `RepositoryExists` call itself succeeds. -/
  existsCallOk : Bool
  /-- `syncGitconfig` succeeds. -/
  syncGitconfigOk : Bool
  /-- `syncInfoAttributes` succeeds. -/
  syncInfoAttrsOk : Bool
  /-- `syncRepository` succeeds. -/
  syncRepositoryOk : Bool

/-- `extractSnapshot`: stream a snapshot of the source and unpack it at the
target path. -/
def extractSnapshot (env : Env) : Except RErr Unit :=
  if !env.clientOk then .error (.other "new client")
  else if !env.snapshotCallOk then .error (.other "get snapshot")
  else if !env.sourceExists then .error .invalidSource
  else if !env.tarOk then .error (.other "tar")
  else .ok ()

/-- `createFromSnapshot`: create the target repository, populating it from
the snapshot (the snapshot error is chained through `%w` wrappings). -/
def createFromSnapshot (env : Env) : Except RErr Unit :=
  match extractSnapshot env with
  | .error e => .error (.wrap "creating repository" (.wrap "extracting snapshot" e))
  | .ok () => .ok ()

/-- `create`: remove an invalid directory at the target path if present,
then create from snapshot. -/
def create (env : Env) : Except RErr Unit :=
  if !env.removeOk then .error (.other "error deleting invalid repo")
  else
    match createFromSnapshot env with
    | .error e => .error (.wrap "could not create repository from snapshot" e)
    | .ok () => .ok ()

/-- The steps following creation: up-front source existence check, then the
three synchronisations. -/
def replicateAfterCreate (env : Env) : Except (Helper.Code × String) Unit :=
  if !env.clientOk then .error (Helper.Code.internal, "new client")
  else if !env.existsCallOk then
    .error (Helper.Code.internal, "checking for repo existence")
  else if !env.sourceExists then
    .error (Helper.Code.notFound, "invalid source repository")
  else if !env.syncGitconfigOk then
    .error (Helper.Code.internal, "synchronizing gitconfig")
  else if !env.syncInfoAttrsOk then
    .error (Helper.Code.internal, "synchronizing gitattributes")
  else if !env.syncRepositoryOk then
    .error (Helper.Code.internal, "synchronizing repository")
  else .ok ()

/-- `ReplicateRepository`: the full RPC, returning either the gRPC error
(code and message) or success. -/
def replicateRepository (env : Env) (req : Request) : Except (Helper.Code × String) Unit :=
  match validateReplicateRepository req with
  | some m => .error (Helper.Code.invalidArgument, m)
  | none =>
    if !env.getPathOk then .error (Helper.Code.internal, "get path")
    else if !env.isGitDirectory then
      match create env with
      | .error e =>
        if e.isInvalidSource then .error (Helper.Code.notFound, "invalid source repository")
        else .error (Helper.Code.internal, "creating repository")
      | .ok () => replicateAfterCreate env
    else replicateAfterCreate env

end Replicate

namespace Store

/-! ## Placement Store (spec-modelled)

The Placement Store implementation (`internal/praefect/datastore`) is not
among the repository files given — only its tests and callers are — so the
operations below are modelled from the spec (§4.1) and checked against the
behaviour the in-repository tests pin down. -/

/-- The generation of each existing replica of one repository: an
association list from storage name to generation.  A storage with no entry
has no replica yet ("replica not yet created"). -/
abbrev Replicas := List (String × Nat)

/-- Look up the generation of a storage's replica. -/
def genOf : Replicas → String → Option Nat
  | [], _ => none
  | (k, v) :: rest, s => if k = s then some v else genOf rest s

/-- Modelled from the spec: `increment_generation(id, primary,
updated_secondaries)` "raises the primary's generation by one, sets each
named updated secondary to the same new generation, and leaves other
replicas untouched (thereby marking them behind)".  `none` models the
`NOT_FOUND` outcome when the primary replica is gone. -/
def bumpRow (primary : String) (updated : List String) (n : Nat) (p : String × Nat) :
    String × Nat :=
  if p.1 = primary ∨ p.1 ∈ updated then (p.1, n) else p

def incrementGeneration (reps : Replicas) (primary : String) (updated : List String) :
    Option Replicas :=
  match genOf reps primary with
  | none => none
  | some g =>
    let newGen := g + 1
    let bumped := reps.map (bumpRow primary updated newGen)
    let missing := updated.filter (fun s => (genOf reps s).isNone)
    some (bumped ++ missing.map (fun s => (s, newGen)))

/-- A Placement Store as the `track-repository` subcommand touches it:
repository rows keyed by `(virtual_storage, relative_path)` and replica rows
keyed by `(repository_id, storage)`. -/
structure PStore where
  /-- `repositories` rows: `(virtual_storage, relative_path, repository_id)`. -/
  repos : List (String × String × Nat)
  /-- `storage_repositories` rows: `(repository_id, storage)`. -/
  replicas : List (Nat × String)
deriving Repr

/-- Whether a repository row for `(virtual, path)` exists. -/
def repoRecorded (st : PStore) (virtual path : String) : Bool :=
  st.repos.any (fun r => r.1 = virtual && r.2.1 = path)

/-- A repository id strictly larger than every id in use. -/
def freshId (st : PStore) : Nat :=
  max (st.repos.foldr (fun (r : String × String × Nat) acc => max r.2.2 acc) 0)
    (st.replicas.foldr (fun (r : Nat × String) acc => max r.1 acc) 0) + 1

/-- Modelled from the spec: `track-repository -virtual-storage V -repository
P -authoritative-storage S` "registers an out-of-band-created repository;
assigns all configured storages", and "for a repository already recorded:
succeeds without duplication".  When the repository row already exists the
store is left unchanged; otherwise a repository row with a fresh id and one
replica row per configured storage are inserted. -/
def trackRepository (st : PStore) (virtual path : String) (storages : List String) :
    Except String PStore :=
  if repoRecorded st virtual path then .ok st
  else
    let id := freshId st
    .ok { repos := st.repos ++ [(virtual, path, id)],
          replicas := st.replicas ++ storages.dedup.map (fun s => (id, s)) }

end Store

namespace Dataloss

/-! ## `dataloss` subcommand (spec-modelled)

The `dataloss` subcommand implementation and the Placement Store queries it
uses are not among the repository files given — only the subcommand's test
is — so the report is modelled from the spec: the unavailability rules of
§4.1, the CLI description of §6 and the concrete "Dataloss report" scenario
of §8, with the report layout pinned down by the in-repository test
`TestDatalossSubcommand`. -/

/-- One repository's placement data, as the report reads it. -/
structure DlRepo where
  relativePath : String
  primary : String
  /-- Generations of the replicas that exist, by storage name. -/
  generations : List (String × Nat)
  /-- The assigned storages `A(R)`. -/
  assignments : List String
deriving Repr

/-- The cluster state the report is computed from. -/
structure DlState where
  /-- Repositories, tagged by their virtual storage. -/
  repos : List (String × DlRepo)
  /-- The effectively healthy storages. -/
  healthy : List String
deriving Repr

/-- `max_generation(R)`: the largest generation any replica holds. -/
def maxGen (r : DlRepo) : Nat :=
  r.generations.foldr (fun p acc => max p.2 acc) 0

/-- A storage's replica is up to date iff its generation equals
`max_generation(R)`; a storage without a replica is not up to date. -/
def upToDate (r : DlRepo) (s : String) : Bool :=
  Store.genOf r.generations s = some (maxGen r)

/-- Whether the storage is assigned to the repository. -/
def assignedB (r : DlRepo) (s : String) : Bool := r.assignments.contains s

/-- Whether the storage is effectively healthy. -/
def healthyB (st : DlState) (s : String) : Bool := st.healthy.contains s

/-- Modelled from the spec: "A repository is unavailable iff, for every
assigned storage `s`, either `generation(s) < max_generation(R)` or
`H(s) = unhealthy`." -/
def unavailableB (st : DlState) (r : DlRepo) : Bool :=
  r.assignments.all (fun s => !(upToDate r s && healthyB st s))

/-- Modelled from the spec: "A repository is partially unavailable iff at
least one assigned replica is out-of-date or unhealthy, but at least one
assigned replica is both up-to-date and healthy." -/
def partiallyUnavailableB (st : DlState) (r : DlRepo) : Bool :=
  r.assignments.any (fun s => !(upToDate r s && healthyB st s)) &&
    r.assignments.any (fun s => upToDate r s && healthyB st s)

/-- How many changes a storage's replica may be behind by: the generation
gap, counting a storage whose replica does not exist yet as one further
behind. -/
def behindBy (r : DlRepo) (s : String) : Nat :=
  match Store.genOf r.generations s with
  | some g => maxGen r - g
  | none => maxGen r + 1

/-- The storages the report lists for a repository: every storage holding a
replica or assigned, in ascending name order. -/
def storagesOf (r : DlRepo) : List String :=
  Gitaly.sortStrings ((r.generations.map (·.1) ++ r.assignments).dedup)

/-- The repositories of one virtual storage, in state order. -/
def reposOf (st : DlState) (v : String) : List DlRepo :=
  (st.repos.filter (fun p => p.1 = v)).map (·.2)

/-- The repositories the report lists for one virtual storage: the
unavailable ones, and with `-partially-unavailable` also the partially
unavailable ones. -/
def listedRepos (st : DlState) (v : String) (includePartial : Bool) : List DlRepo :=
  (reposOf st v).filter (fun r =>
    if includePartial then unavailableB st r || partiallyUnavailableB st r
    else unavailableB st r)

/-- The line for an in-sync storage: its name with "assigned host" and
"unhealthy" annotations. -/
def inSyncLine (st : DlState) (r : DlRepo) (s : String) : String :=
  s ++ (if assignedB r s then ", assigned host" else "")
    ++ (if healthyB st s then "" else ", unhealthy")

/-- The line for an outdated storage: "behind by N changes or less" with the
same annotations. -/
def outdatedLine (st : DlState) (r : DlRepo) (s : String) : String :=
  s ++ " is behind by " ++ toString (behindBy r s)
    ++ (if behindBy r s = 1 then " change" else " changes") ++ " or less"
    ++ (if assignedB r s then ", assigned host" else "")
    ++ (if healthyB st s then "" else ", unhealthy")

/-- The report block for one listed repository. -/
def renderRepo (st : DlState) (r : DlRepo) : String :=
  let inSync := (storagesOf r).filter (fun s => upToDate r s)
  let outdated := (storagesOf r).filter (fun s => !upToDate r s)
  "    " ++ r.relativePath
    ++ (if unavailableB st r then " (unavailable):" else ":") ++ "\n"
    ++ "      Primary: " ++ r.primary ++ "\n"
    ++ (if inSync.isEmpty then ""
        else "      In-Sync Storages:\n"
          ++ String.join (inSync.map (fun s => "        " ++ inSyncLine st r s ++ "\n")))
    ++ (if outdated.isEmpty then ""
        else "      Outdated Storages:\n"
          ++ String.join (outdated.map (fun s => "        " ++ outdatedLine st r s ++ "\n")))

/-- The report section for one virtual storage. -/
def renderVirtualStorage (st : DlState) (includePartial : Bool) (v : String) : String :=
  "Virtual storage: " ++ v ++ "\n"
    ++ (match listedRepos st v includePartial with
        | [] =>
          if includePartial then "  All repositories are fully available on all assigned storages!\n"
          else "  All repositories are available!\n"
        | repos => "  Repositories:\n" ++ String.join (repos.map (renderRepo st)))

/-- The virtual storages the report covers, in print order: the configured
names sorted ascending. -/
def printedVirtualStorages (cfgVirtualStorages : List String) : List String :=
  Gitaly.sortStrings cfgVirtualStorages

/-- The whole `dataloss` report over the configured virtual storages. -/
def datalossOutput (st : DlState) (cfgVirtualStorages : List String)
    (includePartial : Bool) : String :=
  String.join ((printedVirtualStorages cfgVirtualStorages).map
    (renderVirtualStorage st includePartial))

/-- The "Dataloss report" scenario exactly as the spec states it: repository
`repo-2` on `vs1`, primary `gitaly-3`, generations `{gitaly-1: 0, gitaly-2:
1, gitaly-3: 0}`, health `{gitaly-1: up, gitaly-2: down, gitaly-3: up}`,
assignments `{gitaly-1, gitaly-3}`. -/
def specScenarioLiteral : DlState :=
  { repos := [("vs1",
      { relativePath := "repo-2", primary := "gitaly-3",
        generations := [("gitaly-1", 0), ("gitaly-2", 1), ("gitaly-3", 0)],
        assignments := ["gitaly-1", "gitaly-3"] })],
    healthy := ["gitaly-1", "gitaly-3"] }

/-- The "Dataloss report" scenario as the repository's own test pins it
down: as `specScenarioLiteral`, except that `gitaly-1` holds no replica of
`repo-2` at all (its generation record is absent, not `0`). -/
def specScenarioActual : DlState :=
  { repos := [("vs1",
      { relativePath := "repo-2", primary := "gitaly-3",
        generations := [("gitaly-2", 1), ("gitaly-3", 0)],
        assignments := ["gitaly-1", "gitaly-3"] })],
    healthy := ["gitaly-1", "gitaly-3"] }

/-- The report text the scenario requires: `repo-2` unavailable, primary
`gitaly-3`, in-sync `gitaly-2, unhealthy`, outdated `gitaly-1 is behind by 2
changes or less, assigned host` and `gitaly-3 is behind by 1 change or less,
assigned host`. -/
def specScenarioExpected : String :=
  "Virtual storage: vs1\n  Repositories:\n    repo-2 (unavailable):\n      Primary: gitaly-3\n      In-Sync Storages:\n        gitaly-2, unhealthy\n      Outdated Storages:\n        gitaly-1 is behind by 2 changes or less, assigned host\n        gitaly-3 is behind by 1 change or less, assigned host\n"

end Dataloss

/-! ## Claim theorems -/

/-- C9: the reference `Updater` maintains its state machine on every call:
`Update`, `Create` and `Delete` succeed only in state `started` (leaving it
there); `Prepare` succeeds only from `started` and moves to `prepared`;
`Commit` succeeds only from `started` or `prepared` and returns the updater
to `idle`; `Start` succeeds only from `idle`; any call in a wrong state
returns `invalidStateTransitionError` naming the expected and the actual
state and closes the updater, after which the state is `closed` and starting
a further transaction fails. -/
theorem updater_state_machine :
    ∀ s : UpdateRef.UState,
      (UpdateRef.updaterStart s = (none, UpdateRef.UState.started) ↔
        s = UpdateRef.UState.idle) ∧
      (s ≠ UpdateRef.UState.idle →
        UpdateRef.updaterStart s = (some ⟨UpdateRef.UState.idle, s⟩, UpdateRef.UState.closed)) ∧
      (UpdateRef.updaterUpdate s = (none, UpdateRef.UState.started) ↔
        s = UpdateRef.UState.started) ∧
      (s ≠ UpdateRef.UState.started →
        UpdateRef.updaterUpdate s =
          (some ⟨UpdateRef.UState.started, s⟩, UpdateRef.UState.closed)) ∧
      (UpdateRef.updaterCreate s = UpdateRef.updaterUpdate s) ∧
      (UpdateRef.updaterDelete s = UpdateRef.updaterUpdate s) ∧
      (UpdateRef.updaterPrepare s = (none, UpdateRef.UState.prepared) ↔
        s = UpdateRef.UState.started) ∧
      (s ≠ UpdateRef.UState.started →
        UpdateRef.updaterPrepare s =
          (some ⟨UpdateRef.UState.started, s⟩, UpdateRef.UState.closed)) ∧
      (UpdateRef.updaterCommit s = (none, UpdateRef.UState.idle) ↔
        (s = UpdateRef.UState.started ∨ s = UpdateRef.UState.prepared)) ∧
      (s ≠ UpdateRef.UState.started → s ≠ UpdateRef.UState.prepared →
        UpdateRef.updaterCommit s =
          (some ⟨UpdateRef.UState.started, s⟩, UpdateRef.UState.closed)) ∧
      (UpdateRef.updaterClose s = UpdateRef.UState.closed) ∧
      (UpdateRef.updaterStart UpdateRef.UState.closed =
        (some ⟨UpdateRef.UState.idle, UpdateRef.UState.closed⟩, UpdateRef.UState.closed)) := by
  intro s
  cases s <;> decide

/-- Witness for C9: at the `prepared` state, `Update` fails with the error
naming expected `started`/actual `prepared` and closes the updater. -/
theorem updater_state_machine_witness :
    UpdateRef.updaterUpdate UpdateRef.UState.prepared =
      (some ⟨UpdateRef.UState.started, UpdateRef.UState.prepared⟩, UpdateRef.UState.closed) :=
  (updater_state_machine UpdateRef.UState.prepared).2.2.2.1 (by decide)

/-- C10 counterexample: the claim fails as stated — with the testing
override disabled, a context whose metadata lacks the flag's key but carries
the explicit feature-flag testing key makes `IsEnabled` panic rather than
return `OnByDefault` (here `true`). -/
theorem isEnabled_explicit_key_counterexample :
    FFlag.isEnabled ⟨"some_flag", true⟩ (some [(FFlag.explicitFFKey, ["true"])]) ≠
      some true := by
  decide

/-- C10 (amended): for every feature flag and context with the testing
override disabled, provided the metadata does not carry the explicit
feature-flag testing key: a missing metadata map, a missing flag key or an
empty value list yields `OnByDefault`; otherwise `IsEnabled` is true iff the
first metadata value is exactly `"true"`; and `IsDisabled` is always the
negation of `IsEnabled` (panics propagating). -/
theorem isEnabled_spec :
    ∀ (ff : FFlag.FeatureFlag) (ctx : FFlag.Ctx),
      (FFlag.isEnabled ff none = some ff.onByDefault) ∧
      (∀ md, ctx = some md → FFlag.mdLookup md FFlag.explicitFFKey = none →
        (FFlag.mdLookup md (FFlag.metadataKey ff) = none ∨
          FFlag.mdLookup md (FFlag.metadataKey ff) = some []) →
        FFlag.isEnabled ff ctx = some ff.onByDefault) ∧
      (∀ md v vs, ctx = some md →
        FFlag.mdLookup md (FFlag.metadataKey ff) = some (v :: vs) →
        FFlag.isEnabled ff ctx = some (decide (v = "true"))) ∧
      (FFlag.isDisabled ff ctx = (FFlag.isEnabled ff ctx).map (!·)) := by
  intro ff ctx
  refine ⟨by simp [FFlag.isEnabled, FFlag.valueFromContext], ?_, ?_, rfl⟩
  · rintro md rfl hexp hkey
    rcases hkey with h | h <;> simp [FFlag.isEnabled, FFlag.valueFromContext, h, hexp]
  · rintro md v vs rfl hkey
    simp [FFlag.isEnabled, FFlag.valueFromContext, hkey]

/-- Witness for C10: a concrete flag that is off by default is enabled by a
metadata value `"true"`. -/
theorem isEnabled_spec_witness :
    FFlag.isEnabled ⟨"some_flag", false⟩
      (some [("gitaly-feature-some-flag", ["true"])]) = some true := by
  have h := (isEnabled_spec ⟨"some_flag", false⟩
    (some [("gitaly-feature-some-flag", ["true"])])).2.2.1
    [("gitaly-feature-some-flag", ["true"])] "true" [] rfl (by decide)
  simpa using h

/-- C8: each error-wrapping helper is `wrapError` at its code; `wrapError`
returns an error already carrying a gRPC status unchanged, maps nil to nil,
and for a plain wrapping error whose nested error chain carries a code other
than `OK`/`Unknown` uses that nested code instead of its own. -/
theorem errWrappers_spec :
    ∀ (c : Helper.Code) (e : Helper.GoError),
      (Helper.wrapError c none = none) ∧
      (Helper.ErrCanceled (some e) = Helper.wrapError Helper.Code.canceled (some e)) ∧
      (Helper.ErrDeadlineExceeded (some e) =
        Helper.wrapError Helper.Code.deadlineExceeded (some e)) ∧
      (Helper.ErrInternal (some e) = Helper.wrapError Helper.Code.internal (some e)) ∧
      (Helper.ErrInvalidArgument (some e) =
        Helper.wrapError Helper.Code.invalidArgument (some e)) ∧
      (Helper.ErrNotFound (some e) = Helper.wrapError Helper.Code.notFound (some e)) ∧
      (Helper.ErrFailedPrecondition (some e) =
        Helper.wrapError Helper.Code.failedPrecondition (some e)) ∧
      (Helper.ErrUnavailable (some e) = Helper.wrapError Helper.Code.unavailable (some e)) ∧
      (Helper.ErrPermissionDenied (some e) =
        Helper.wrapError Helper.Code.permissionDenied (some e)) ∧
      (Helper.ErrAlreadyExists (some e) =
        Helper.wrapError Helper.Code.alreadyExists (some e)) ∧
      (Helper.ErrAborted (some e) = Helper.wrapError Helper.Code.aborted (some e)) ∧
      (Helper.ErrUnauthenticated (some e) =
        Helper.wrapError Helper.Code.unauthenticated (some e)) ∧
      ((Helper.fromStatusError e).isSome = true → Helper.wrapError c (some e) = some e) ∧
      (∀ m inner, e = Helper.GoError.wrapf m inner →
        Helper.grpcCode (some inner) ≠ Helper.Code.ok →
        Helper.grpcCode (some inner) ≠ Helper.Code.unknown →
        Helper.wrapError c (some e) =
          some (Helper.GoError.statusWrapper e (Helper.grpcCode (some inner)) m)) := by
  intro c e
  refine ⟨rfl, rfl, rfl, rfl, rfl, rfl, rfl, rfl, rfl, rfl, rfl, rfl, ?_, ?_⟩
  · intro h
    simp [Helper.wrapError, h]
  · rintro m inner rfl hok hunk
    simp only [Helper.wrapError, Helper.fromStatusError, Option.isSome_none,
      Bool.false_eq_true, if_false]
    have : Helper.grpcCode (some (Helper.GoError.wrapf m inner)) =
        Helper.grpcCode (some inner) := rfl
    simp [this, hok, hunk, Helper.goMsg]

/-- Witness for C8: `ErrInternal` of a plain error wrapping an
`OutOfRange`-status error keeps the `OutOfRange` code. -/
theorem errWrappers_spec_witness :
    Helper.wrapError Helper.Code.internal
        (some (Helper.GoError.wrapf "outer"
          (Helper.GoError.grpcStatus Helper.Code.outOfRange "inner"))) =
      some (Helper.GoError.statusWrapper
        (Helper.GoError.wrapf "outer"
          (Helper.GoError.grpcStatus Helper.Code.outOfRange "inner"))
        Helper.Code.outOfRange "outer") :=
  (errWrappers_spec Helper.Code.internal
    (Helper.GoError.wrapf "outer"
      (Helper.GoError.grpcStatus Helper.Code.outOfRange "inner"))).2.2.2.2.2.2.2.2.2.2.2.2.2
    "outer" (Helper.GoError.grpcStatus Helper.Code.outOfRange "inner") rfl
    (by decide) (by decide)

theorem deleteLoop_ok (env : DeleteRefs.Env) (refs : List String) (acc out : String)
    (h : DeleteRefs.deleteLoop env refs acc = .ok out) :
    out = acc ++ DeleteRefs.voteInput refs := by
  induction refs generalizing acc with
  | nil =>
    simp only [DeleteRefs.deleteLoop] at h
    cases h
    simp [DeleteRefs.voteInput]
  | cons r rest ih =>
    simp only [DeleteRefs.deleteLoop] at h
    cases hd : env.deleteErr r with
    | some e => rw [hd] at h; cases h
    | none =>
      rw [hd] at h
      rw [ih _ h, DeleteRefs.voteInput]
      simp [String.append_assoc]

/-- C5: on a `DeleteRefs` call that succeeds after deleting a non-empty list
of references, exactly two votes are submitted to the transaction manager —
one `Prepared`, one `Committed` — and both carry the same hash value: the
hash of the concatenation of the deleted reference names, each terminated by
a newline, in deletion order. -/
theorem deleteRefs_vote_hash :
    ∀ (V : Type) (hash : String → V) (env : DeleteRefs.Env)
      (req : DeleteRefs.DeleteRefsRequest) (votes : List (DeleteRefs.Phase × V)),
      DeleteRefs.deleteRefs hash env req = (DeleteRefs.Outcome.ok, votes) →
      DeleteRefs.refsToRemove req env.existingRefs ≠ [] →
      votes =
        [(DeleteRefs.Phase.prepared,
            hash (DeleteRefs.voteInput (DeleteRefs.refsToRemove req env.existingRefs))),
          (DeleteRefs.Phase.committed,
            hash (DeleteRefs.voteInput (DeleteRefs.refsToRemove req env.existingRefs)))] := by
  intro V hash env req votes h _hne
  cases hval : DeleteRefs.validateDeleteRefRequest req with
  | some m => simp [DeleteRefs.deleteRefs, hval] at h
  | none =>
    simp only [DeleteRefs.deleteRefs, hval] at h
    split at h
    · simp at h
    · cases hdl : DeleteRefs.deleteLoop env (DeleteRefs.refsToRemove req env.existingRefs) ""
        with
      | error e =>
        simp only [hdl] at h
        split at h <;> simp at h
      | ok voteBytes =>
        simp only [hdl] at h
        have hvb : voteBytes =
            DeleteRefs.voteInput (DeleteRefs.refsToRemove req env.existingRefs) := by
          have := deleteLoop_ok env _ _ _ hdl
          simpa using this
        cases hp : env.prepareErr with
        | some pe =>
          cases pe <;> simp only [hp] at h <;> split at h <;> simp at h
        | none =>
          simp only [hp] at h
          split at h
          · simp at h
          · cases hc : env.commitErr with
            | some m =>
              simp only [hc] at h
              split at h <;> simp at h
            | none =>
              simp only [hc] at h
              split at h
              · simp at h
              · rw [hvb] at h
                exact (Prod.mk.injEq _ _ _ _ ▸ h).2.symm

/-- Witness for C5: a concrete successful two-ref deletion, with the string
length standing in for the hash function. -/
theorem deleteRefs_vote_hash_witness :
    DeleteRefs.deleteRefs String.length
        { structuredErrors := false, existingRefs := [], invalidRef := fun _ => false,
          deleteErr := fun _ => none, prepareErr := none, voteOk := fun _ => true,
          commitErr := none }
        { hasRepository := true, refs := ["refs/heads/a", "refs/heads/b"],
          exceptWithPfx := [] } =
      (DeleteRefs.Outcome.ok,
        [(DeleteRefs.Phase.prepared, 26), (DeleteRefs.Phase.committed, 26)]) ∧
    [(DeleteRefs.Phase.prepared, 26), (DeleteRefs.Phase.committed, 26)] =
      [(DeleteRefs.Phase.prepared,
          String.length (DeleteRefs.voteInput
            (DeleteRefs.refsToRemove
              { hasRepository := true, refs := ["refs/heads/a", "refs/heads/b"],
                exceptWithPfx := [] } []))),
        (DeleteRefs.Phase.committed,
          String.length (DeleteRefs.voteInput
            (DeleteRefs.refsToRemove
              { hasRepository := true, refs := ["refs/heads/a", "refs/heads/b"],
                exceptWithPfx := [] } [])))] :=
  ⟨by decide, deleteRefs_vote_hash Nat String.length
    { structuredErrors := false, existingRefs := [], invalidRef := fun _ => false,
      deleteErr := fun _ => none, prepareErr := none, voteOk := fun _ => true,
      commitErr := none }
    { hasRepository := true, refs := ["refs/heads/a", "refs/heads/b"],
      exceptWithPfx := [] }
    [(DeleteRefs.Phase.prepared, 26), (DeleteRefs.Phase.committed, 26)]
    (by decide) (by decide)⟩

/-- C6: `ReplicateRepository` returns `NotFound` with message "invalid
source repository" whenever the source repository does not exist on its
storage — both on the path that first creates the target from a snapshot and
on the up-front existence check — and returns `InvalidArgument` when the
source is missing from the request or when target and source name the same
storage. -/
theorem replicateRepository_errors :
    ∀ (env : Replicate.Env) (req : Replicate.Request),
      (Replicate.validateReplicateRepository req = none →
        env.getPathOk = true → env.removeOk = true → env.clientOk = true →
        env.snapshotCallOk = true → env.existsCallOk = true →
        env.sourceExists = false →
        Replicate.replicateRepository env req =
          .error (Helper.Code.notFound, "invalid source repository")) ∧
      (∀ r, req.repository = some r → r.storageName ≠ "" → r.relativePath ≠ "" →
        req.source = none →
        Replicate.replicateRepository env req =
          .error (Helper.Code.invalidArgument, "source repository cannot be empty")) ∧
      (∀ r s, req.repository = some r → r.storageName ≠ "" → r.relativePath ≠ "" →
        req.source = some s → r.storageName = s.storageName →
        Replicate.replicateRepository env req =
          .error (Helper.Code.invalidArgument,
            "repository and source have the same storage")) := by
  intro env req
  refine ⟨?_, ?_, ?_⟩
  · intro hval hgp hrm hcl hsnap hex hsrc
    unfold Replicate.replicateRepository
    rw [hval]
    simp only [hgp, Bool.not_true, Bool.false_eq_true, if_false]
    by_cases hgit : env.isGitDirectory = true
    · simp [hgit, Replicate.replicateAfterCreate, hcl, hex, hsrc]
    · have hgit' : env.isGitDirectory = false := by
        cases h : env.isGitDirectory
        · rfl
        · exact absurd h hgit
      have hcr : Replicate.create env =
          .error (.wrap "could not create repository from snapshot"
            (.wrap "creating repository" (.wrap "extracting snapshot" .invalidSource))) := by
        unfold Replicate.create Replicate.createFromSnapshot Replicate.extractSnapshot
        simp [hrm, hcl, hsnap, hsrc]
      simp [hgit', hcr, Replicate.RErr.isInvalidSource]
  · intro r hrep hsn hrp hsrc
    have hval : Replicate.validateReplicateRepository req =
        some "source repository cannot be empty" := by
      unfold Replicate.validateReplicateRepository Replicate.validateRepository
      rw [hrep, hsrc]
      simp [hsn, hrp]
    unfold Replicate.replicateRepository
    rw [hval]
  · intro r s hrep hsn hrp hsrc hsame
    have hval : Replicate.validateReplicateRepository req =
        some "repository and source have the same storage" := by
      unfold Replicate.validateReplicateRepository Replicate.validateRepository
      rw [hrep, hsrc]
      simp only [if_neg hsn, if_neg hrp]
      simp [hsame]
    unfold Replicate.replicateRepository
    rw [hval]

/-- Witness for C6: with a missing source repository, a concrete request is
answered `NotFound`/"invalid source repository" on the snapshot-creation
path. -/
theorem replicateRepository_errors_witness :
    Replicate.replicateRepository
        { isGitDirectory := false, getPathOk := true, removeOk := true, clientOk := true,
          snapshotCallOk := true, sourceExists := false, tarOk := true, existsCallOk := true,
          syncGitconfigOk := true, syncInfoAttrsOk := true, syncRepositoryOk := true }
        { repository := some ⟨"target-storage", "path"⟩,
          source := some ⟨"source-storage", "path"⟩ } =
      .error (Helper.Code.notFound, "invalid source repository") :=
  (replicateRepository_errors
    { isGitDirectory := false, getPathOk := true, removeOk := true, clientOk := true,
      snapshotCallOk := true, sourceExists := false, tarOk := true, existsCallOk := true,
      syncGitconfigOk := true, syncInfoAttrsOk := true, syncRepositoryOk := true }
    { repository := some ⟨"target-storage", "path"⟩,
      source := some ⟨"source-storage", "path"⟩ }).1
    (by decide) rfl rfl rfl rfl rfl rfl

theorem genOf_append (a b : Store.Replicas) (s : String) :
    Store.genOf (a ++ b) s =
      match Store.genOf a s with
      | some v => some v
      | none => Store.genOf b s := by
  induction a with
  | nil => rfl
  | cons p rest ih =>
    obtain ⟨k, v⟩ := p
    by_cases h : k = s <;> simp [Store.genOf, h, ih]

theorem bumpRow_pair (primary : String) (updated : List String) (n : Nat) (k : String)
    (v : Nat) :
    Store.bumpRow primary updated n (k, v) =
      (k, if k = primary ∨ k ∈ updated then n else v) := by
  by_cases hc : k = primary ∨ k ∈ updated <;> simp [Store.bumpRow, hc]

theorem genOf_map_bump (reps : Store.Replicas) (primary : String) (updated : List String)
    (n : Nat) (s : String) :
    Store.genOf (reps.map (Store.bumpRow primary updated n)) s =
      (Store.genOf reps s).map (fun g =>
        if s = primary ∨ s ∈ updated then n else g) := by
  induction reps with
  | nil => rfl
  | cons p rest ih =>
    obtain ⟨k, v⟩ := p
    simp only [List.map_cons]
    rw [bumpRow_pair]
    by_cases hk : k = s
    · subst hk
      simp only [Store.genOf, if_pos rfl]
      by_cases hc : k = primary ∨ k ∈ updated <;> simp [hc]
    · simp only [Store.genOf, if_neg hk]
      exact ih

theorem genOf_map_const (l : List String) (n : Nat) (s : String) :
    Store.genOf (l.map (fun t => (t, n))) s = if s ∈ l then some n else none := by
  induction l with
  | nil => simp [Store.genOf]
  | cons t ts ih =>
    by_cases h : t = s
    · subst h; simp [Store.genOf]
    · simp [Store.genOf, h, ih, Ne.symm h]

/-- C3: `increment_generation` raises the primary replica's generation by
exactly one, sets each listed updated secondary to the same new generation
(creating its record if the replica had none), and leaves every other
replica's generation unchanged — an existing secondary keeps its old
generation and a not-yet-created replica stays absent. -/
theorem incrementGeneration_frame :
    ∀ (reps : Store.Replicas) (primary : String) (updated : List String) (g : Nat),
      Store.genOf reps primary = some g →
      ∃ reps', Store.incrementGeneration reps primary updated = some reps' ∧
        Store.genOf reps' primary = some (g + 1) ∧
        (∀ s, s ∈ updated → Store.genOf reps' s = some (g + 1)) ∧
        (∀ s, s ≠ primary → s ∉ updated → Store.genOf reps' s = Store.genOf reps s) := by
  intro reps primary updated g hg
  refine ⟨_, by unfold Store.incrementGeneration; rw [hg], ?_, ?_, ?_⟩
  · rw [genOf_append, genOf_map_bump, hg]
    simp
  · intro s hs
    rw [genOf_append, genOf_map_bump]
    cases hrs : Store.genOf reps s with
    | some g0 => simp [hs]
    | none =>
      simp only [Option.map_none']
      rw [genOf_map_const]
      rw [if_pos (List.mem_filter.mpr ⟨hs, by simp [hrs]⟩)]
  · intro s hsp hsu
    rw [genOf_append, genOf_map_bump]
    cases hrs : Store.genOf reps s with
    | some g0 => simp [hsp, hsu]
    | none =>
      simp only [Option.map_none']
      rw [genOf_map_const]
      rw [if_neg (fun hmem => hsu (List.mem_filter.mp hmem).1)]

/-- Witness for C3: a concrete increment on three replicas — the primary
`a` goes from 3 to 4, the updated secondary `b` follows, and the untouched
replica `c` keeps its generation. -/
theorem incrementGeneration_frame_witness :
    Store.incrementGeneration [("a", 3), ("b", 3), ("c", 2)] "a" ["b"] =
      some [("a", 4), ("b", 4), ("c", 2)] ∧
    Store.genOf [("a", 4), ("b", 4), ("c", 2)] "c" =
      Store.genOf [("a", 3), ("b", 3), ("c", 2)] "c" := by
  obtain ⟨reps', h1, -, -, h4⟩ :=
    incrementGeneration_frame [("a", 3), ("b", 3), ("c", 2)] "a" ["b"] 3 (by decide)
  have hev : Store.incrementGeneration [("a", 3), ("b", 3), ("c", 2)] "a" ["b"] =
      some [("a", 4), ("b", 4), ("c", 2)] := by decide
  refine ⟨hev, ?_⟩
  have hr : [("a", 4), ("b", 4), ("c", 2)] = reps' := by
    rw [hev] at h1
    exact (Option.some.injEq _ _).mp h1
  rw [hr]
  exact h4 "c" (by decide) (by decide)

theorem le_foldr_max (l : List (Nat × String)) (x : Nat × String) (hx : x ∈ l) :
    x.1 ≤ l.foldr (fun (r : Nat × String) acc => max r.1 acc) 0 := by
  induction l with
  | nil => cases hx
  | cons p rest ih =>
    rcases List.mem_cons.mp hx with rfl | h
    · exact Nat.le_max_left _ _
    · exact Nat.le_trans (ih h) (Nat.le_max_right _ _)

theorem mem_replicas_lt_freshId (st : Store.PStore) (x : Nat × String)
    (hx : x ∈ st.replicas) : x.1 < Store.freshId st := by
  have h := le_foldr_max st.replicas x hx
  unfold Store.freshId
  have h2 := Nat.le_max_right
    (st.repos.foldr (fun (r : String × String × Nat) acc => max r.2.2 acc) 0)
    (st.replicas.foldr (fun (r : Nat × String) acc => max r.1 acc) 0)
  omega

/-- C4: `track-repository` is idempotent at the Placement Store level — when
the repository record already exists it succeeds leaving the store
unchanged; and any successful run leaves a store on which running it again
succeeds without change and whose replica table still has no duplicate rows
(exactly one row per replica). -/
theorem trackRepository_idempotent :
    ∀ (st : Store.PStore) (virtual path : String) (storages : List String),
      (Store.repoRecorded st virtual path = true →
        Store.trackRepository st virtual path storages = .ok st) ∧
      (∀ st', Store.trackRepository st virtual path storages = .ok st' →
        Store.repoRecorded st' virtual path = true ∧
        Store.trackRepository st' virtual path storages = .ok st' ∧
        (st.replicas.Nodup → st'.replicas.Nodup)) := by
  intro st virtual path storages
  have hrecLater : ∀ st'' : Store.PStore, Store.repoRecorded st'' virtual path = true →
      Store.trackRepository st'' virtual path storages = .ok st'' := by
    intro st'' h
    simp [Store.trackRepository, h]
  refine ⟨hrecLater st, ?_⟩
  intro st' h
  by_cases hrec : Store.repoRecorded st virtual path = true
  · have hst : st' = st := by
      rw [hrecLater st hrec] at h
      exact (Except.ok.injEq _ _ ▸ h).symm
    subst hst
    exact ⟨hrec, hrecLater st' hrec, fun hd => hd⟩
  · have hst : st' =
        ⟨st.repos ++ [(virtual, path, Store.freshId st)],
          st.replicas ++ storages.dedup.map (fun s => (Store.freshId st, s))⟩ := by
      simp only [Store.trackRepository, hrec, if_false, Bool.false_eq_true] at h
      exact (Except.ok.injEq _ _ ▸ h).symm
    have hrec' : Store.repoRecorded st' virtual path = true := by
      rw [hst]
      unfold Store.repoRecorded
      simp [List.any_append]
    refine ⟨hrec', hrecLater st' hrec', ?_⟩
    intro hnd
    rw [hst]
    simp only []
    rw [List.nodup_append]
    refine ⟨hnd, ?_, ?_⟩
    · exact List.Nodup.map (fun a b hab => (Prod.mk.injEq _ _ _ _ ▸ hab).2)
        storages.nodup_dedup
    · intro x hx hx2
      have h1 := mem_replicas_lt_freshId st x hx
      obtain ⟨s, _, rfl⟩ := List.mem_map.mp hx2
      simp at h1

/-- Witness for C4: re-running `track-repository` on a store that already
records the repository returns the store unchanged. -/
theorem trackRepository_idempotent_witness :
    Store.trackRepository ⟨[("vs", "p", 1)], [(1, "a"), (1, "b")]⟩ "vs" "p" ["a", "b"] =
      .ok ⟨[("vs", "p", 1)], [(1, "a"), (1, "b")]⟩ :=
  (trackRepository_idempotent ⟨[("vs", "p", 1)], [(1, "a"), (1, "b")]⟩ "vs" "p"
    ["a", "b"]).1 (by decide)

/-- C1: for every repository, without `-partially-unavailable` the
`dataloss` listing holds exactly the unavailable repositories (no assigned
replica both up-to-date and healthy), with the flag additionally the
partially unavailable ones (some assigned replica out-of-date or unhealthy,
some other both up-to-date and healthy); a repository all of whose assigned
replicas are up-to-date and healthy is never listed. -/
theorem dataloss_listing_spec :
    ∀ (st : Dataloss.DlState) (v : String) (flag : Bool) (r : Dataloss.DlRepo),
      (Dataloss.unavailableB st r = true ↔
        ∀ s ∈ r.assignments,
          ¬(Dataloss.upToDate r s = true ∧ Dataloss.healthyB st s = true)) ∧
      (Dataloss.partiallyUnavailableB st r = true ↔
        ((∃ s ∈ r.assignments,
            ¬(Dataloss.upToDate r s = true ∧ Dataloss.healthyB st s = true)) ∧
          (∃ s ∈ r.assignments,
            Dataloss.upToDate r s = true ∧ Dataloss.healthyB st s = true))) ∧
      (r ∈ Dataloss.listedRepos st v flag ↔
        (r ∈ Dataloss.reposOf st v ∧
          (Dataloss.unavailableB st r = true ∨
            (flag = true ∧ Dataloss.partiallyUnavailableB st r = true)))) ∧
      (r.assignments ≠ [] →
        (∀ s ∈ r.assignments,
          Dataloss.upToDate r s = true ∧ Dataloss.healthyB st s = true) →
        r ∉ Dataloss.listedRepos st v flag) := by
  intro st v flag r
  have h1 : Dataloss.unavailableB st r = true ↔
      ∀ s ∈ r.assignments,
        ¬(Dataloss.upToDate r s = true ∧ Dataloss.healthyB st s = true) := by
    unfold Dataloss.unavailableB
    rw [List.all_eq_true]
    apply forall_congr'
    intro s
    apply imp_congr_right
    intro _
    cases Dataloss.upToDate r s <;> cases Dataloss.healthyB st s <;> simp
  have h2 : Dataloss.partiallyUnavailableB st r = true ↔
      ((∃ s ∈ r.assignments,
          ¬(Dataloss.upToDate r s = true ∧ Dataloss.healthyB st s = true)) ∧
        (∃ s ∈ r.assignments,
          Dataloss.upToDate r s = true ∧ Dataloss.healthyB st s = true)) := by
    unfold Dataloss.partiallyUnavailableB
    rw [Bool.and_eq_true, List.any_eq_true, List.any_eq_true]
    apply and_congr <;> apply exists_congr <;> intro s <;>
      apply and_congr_right <;> intro _ <;>
      cases Dataloss.upToDate r s <;> cases Dataloss.healthyB st s <;> simp
  have h3 : r ∈ Dataloss.listedRepos st v flag ↔
      (r ∈ Dataloss.reposOf st v ∧
        (Dataloss.unavailableB st r = true ∨
          (flag = true ∧ Dataloss.partiallyUnavailableB st r = true))) := by
    unfold Dataloss.listedRepos
    rw [List.mem_filter]
    apply and_congr_right
    intro _
    cases flag
    · simp
    · cases Dataloss.unavailableB st r <;> cases Dataloss.partiallyUnavailableB st r <;> simp
  refine ⟨h1, h2, h3, ?_⟩
  intro hne hall
  rw [h3]
  rintro ⟨-, hbad⟩
  rcases hbad with hu | ⟨-, hp⟩
  · obtain ⟨s0, hs0⟩ := List.exists_mem_of_ne_nil r.assignments hne
    exact (h1.mp hu s0 hs0) (hall s0 hs0)
  · obtain ⟨⟨s1, hs1, hnot⟩, -⟩ := h2.mp hp
    exact hnot (hall s1 hs1)

/-- Witness for C1: a fully available repository (one assigned replica,
up-to-date and healthy) is absent from the listing. -/
theorem dataloss_listing_spec_witness :
    Dataloss.DlRepo.mk "p" "a" [("a", 0)] ["a"] ∉
      Dataloss.listedRepos
        (Dataloss.DlState.mk [("vs", Dataloss.DlRepo.mk "p" "a" [("a", 0)] ["a"])] ["a"])
        "vs" true :=
  (dataloss_listing_spec
    (Dataloss.DlState.mk [("vs", Dataloss.DlRepo.mk "p" "a" [("a", 0)] ["a"])] ["a"])
    "vs" true (Dataloss.DlRepo.mk "p" "a" [("a", 0)] ["a"])).2.2.2
    (by decide) (by decide)

set_option maxRecDepth 100000 in
/-- C2 counterexample: with the scenario state exactly as the spec writes it
(`gitaly-1` at generation `0`), the report does not match the text the spec
requires — `gitaly-1` is printed as behind by 1 change or less, not 2. -/
theorem dataloss_report_scenario_counterexample :
    Dataloss.datalossOutput Dataloss.specScenarioLiteral ["vs1"] false ≠
      Dataloss.specScenarioExpected := by
  decide

set_option maxRecDepth 100000 in
/-- C2 (amended): with `gitaly-1` holding no replica of `repo-2` (generation
record absent rather than `0`), the `dataloss` report restricted to `vs1`
prints exactly the required text: `repo-2` unavailable with primary
`gitaly-3`, in-sync `gitaly-2, unhealthy`, and outdated `gitaly-1 is behind
by 2 changes or less, assigned host` and `gitaly-3 is behind by 1 change or
less, assigned host`. -/
theorem dataloss_report_scenario_amended :
    Dataloss.datalossOutput Dataloss.specScenarioActual ["vs1"] false =
      Dataloss.specScenarioExpected := by
  decide

/-- C7: the `dataloss` report is deterministic in the configuration order of
the virtual storages — permuting the configured list leaves the output
unchanged — and the virtual storages are printed in ascending lexicographic
name order. -/
theorem dataloss_deterministic_order :
    ∀ (st : Dataloss.DlState) (cfg1 cfg2 : List String) (flag : Bool),
      List.Perm cfg1 cfg2 →
      Dataloss.datalossOutput st cfg1 flag = Dataloss.datalossOutput st cfg2 flag ∧
      (Dataloss.printedVirtualStorages cfg1).Sorted Gitaly.SLe := by
  intro st cfg1 cfg2 flag hperm
  constructor
  · unfold Dataloss.datalossOutput Dataloss.printedVirtualStorages
    rw [Gitaly.sortStrings_eq_of_perm cfg1 cfg2 hperm]
  · exact List.sorted_insertionSort Gitaly.SLe cfg1

/-- Witness for C7: two concrete two-element configurations that are
permutations of each other give identical output, printed sorted. -/
theorem dataloss_deterministic_order_witness :
    Dataloss.datalossOutput ⟨[], []⟩ ["vs-b", "vs-a"] false =
      Dataloss.datalossOutput ⟨[], []⟩ ["vs-a", "vs-b"] false ∧
    (Dataloss.printedVirtualStorages ["vs-b", "vs-a"]).Sorted Gitaly.SLe :=
  dataloss_deterministic_order ⟨[], []⟩ ["vs-b", "vs-a"] ["vs-a", "vs-b"] false
    (by decide)
